import Mathlib

/-!
Shallow embedding of the rei-automation reconciliation core.

The Python sources embedded here:
  - src/app/models/page_state.py  (PageState: the edit ledger over the page_state table)
  - src/app/models/dlq.py         (DLQ: the dead-letter store)
  - src/worker/tasks.py           (process_page and its helpers)
  - src/app/main.py               (poll_notion, enqueue_test)
  - src/notion/database.py        (NotionDatabase.query_since, load_cursor, save_cursor)

Machine state (Postgres tables, the Drive folder tree, Notion pages, the cursor
file) is modelled as explicit data passed through the functions; external calls
are recorded in an effect trace carried by the world state.  Timestamps stored
in TIMESTAMPTZ columns are modelled as integers (instants); ISO-8601 strings are
parsed by a model of the stdlib parser.
-/

namespace ReiAuto

/-- One row of the page_state table (DDL in src/app/models/page_state.py). -/
structure Row where
  last_processed_edit : Option Int := none
  last_seen_edit : Option Int := none
  drive_folder_id : Option String := none
  drive_link : Option String := none
deriving Repr, DecidableEq

/-- The page_state table: association list keyed by page_id. -/
abbrev Ledger := List (String × Row)

/-- Lookup by key in a string-keyed association list (first match). -/
def lookupAssoc {α : Type} (l : List (String × α)) (k : String) : Option α :=
  match l with
  | [] => none
  | (k2, v) :: rest => if k2 = k then some v else lookupAssoc rest k

/-- Upsert into a string-keyed association list: replace the first entry with
the given key, or append a fresh entry if the key is absent. -/
def setAssoc {α : Type} (l : List (String × α)) (k : String) (v : α) : List (String × α) :=
  match l with
  | [] => [(k, v)]
  | (k2, v2) :: rest => if k2 = k then (k2, v) :: rest else (k2, v2) :: setAssoc rest k v

/-- SELECT the row with the given primary key. -/
def lookupRow (led : Ledger) (id : String) : Option Row := lookupAssoc led id

/-- Row upsert on the page_state table. -/
def setRow (led : Ledger) (id : String) (r : Row) : Ledger := setAssoc led id r

/-- Postgres GREATEST over a nullable column and a non-null value: SQL NULLs are
ignored, so a NULL column yields the new value. -/
def greatestO (a : Option Int) (b : Int) : Int :=
  match a with
  | none => b
  | some x => max x b

/-- The SQL body of PageState.already_processed (page_state.py lines 61-80):
a single upsert that advances last_seen_edit to GREATEST(existing, edit_ts) and
returns the (unchanged) last_processed_edit of the row; the Python then returns
False when that value is NULL, else the comparison last_processed_edit >= edit_ts. -/
def alreadyProcessedDB (led : Ledger) (id : String) (edit_dt : Int) : Bool × Ledger :=
  match lookupRow led id with
  | none =>
      (false, setRow led id { last_seen_edit := some edit_dt })
  | some row =>
      let res := match row.last_processed_edit with
        | none => false
        | some lp => decide (lp ≥ edit_dt)
      (res, setRow led id { row with last_seen_edit := some (greatestO row.last_seen_edit edit_dt) })

/-- The SQL body of PageState.mark_processed (page_state.py lines 85-98): upsert
setting both timestamps to GREATEST(existing, edit_ts). -/
def markProcessedDB (led : Ledger) (id : String) (edit_dt : Int) : Ledger :=
  match lookupRow led id with
  | none =>
      setRow led id { last_processed_edit := some edit_dt, last_seen_edit := some edit_dt }
  | some row =>
      setRow led id { row with
        last_processed_edit := some (greatestO row.last_processed_edit edit_dt),
        last_seen_edit := some (greatestO row.last_seen_edit edit_dt) }

/-- PageState.get_drive_info: SELECT drive_folder_id, drive_link. -/
def get_drive_info (led : Ledger) (id : String) : Option String × Option String :=
  match lookupRow led id with
  | none => (none, none)
  | some row => (row.drive_folder_id, row.drive_link)

/-- PageState.set_drive_info: upsert overwriting drive_folder_id and drive_link,
leaving the timestamps of an existing row untouched. -/
def set_drive_info (led : Ledger) (id : String) (folder_id link : String) : Ledger :=
  match lookupRow led id with
  | none =>
      setRow led id { drive_folder_id := some folder_id, drive_link := some link }
  | some row =>
      setRow led id { row with drive_folder_id := some folder_id, drive_link := some link }

/-! ### Model of the ISO-8601 timestamp parser

PageState._parse_iso_z rewrites a trailing Z to +00:00, calls the stdlib
datetime.fromisoformat (which raises ValueError on a malformed string), and
defaults a missing offset to UTC.  The stdlib parser is an external collaborator;
it is modelled here as a total function returning none exactly when the string
does not match YYYY-MM-DD[(T or space)HH:MM[:SS[.(1-6 digits)]]][(+ or -)HH:MM],
and otherwise a pair of (instant encoded in microseconds on an order-preserving
scale, optional offset in minutes). -/

/-- One ASCII digit, or none. -/
def digitVal (c : Char) : Option Nat :=
  if c.isDigit then some (c.toNat - 48) else none

/-- Read exactly n digits as a number. -/
def readDigits : Nat → List Char → Option (Nat × List Char)
  | 0, cs => some (0, cs)
  | n + 1, [] => (fun _ => none) n
  | n + 1, c :: cs =>
      match digitVal c with
      | none => none
      | some d =>
          match readDigits n cs with
          | none => none
          | some (v, rest) => some (d * 10 ^ n + v, rest)

/-- Read between 1 and 6 fractional-second digits, scaled to microseconds. -/
def readFrac (cs : List Char) : Option (Nat × List Char) :=
  match cs with
  | c :: rest =>
      match digitVal c with
      | none => none
      | some d =>
          let rec go (acc scale : Nat) : List Char → Nat × List Char
            | [] => (acc * scale, [])
            | c2 :: rest2 =>
                if scale = 1 then (acc, c2 :: rest2)
                else match digitVal c2 with
                  | none => (acc * scale, c2 :: rest2)
                  | some d2 => go (acc * 10 + d2) (scale / 10) rest2
          some (go d 100000 rest)
  | [] => none

/-- Offset suffix (+ or -)HH:MM, in minutes. -/
def readOffset (cs : List Char) : Option Int :=
  match cs with
  | sign :: rest =>
      if sign = '+' ∨ sign = '-' then
        match readDigits 2 rest with
        | some (oh, ':' :: rest2) =>
            match readDigits 2 rest2 with
            | some (om, []) =>
                let m : Int := (oh * 60 + om : Nat)
                some (if sign = '-' then -m else m)
            | _ => none
        | _ => none
      else none
  | [] => none

/-- Time-of-day part HH:MM[:SS[.frac]], returning microseconds since midnight. -/
def readTime (cs : List Char) : Option (Nat × List Char) :=
  match readDigits 2 cs with
  | some (h, ':' :: rest) =>
      if h ≥ 24 then none else
      match readDigits 2 rest with
      | some (mi, rest2) =>
          if mi ≥ 60 then none else
          let base := (h * 60 + mi) * 60
          match rest2 with
          | ':' :: rest3 =>
              match readDigits 2 rest3 with
              | some (s, rest4) =>
                  if s ≥ 60 then none else
                  match rest4 with
                  | '.' :: rest5 =>
                      match readFrac rest5 with
                      | some (us, rest6) => some (((base + s) * 1000000 + us, rest6))
                      | none => none
                  | _ => some ((base + s) * 1000000, rest4)
              | _ => none
          | _ => some (base * 1000000, rest2)
      | _ => none
  | _ => none

/-- Model of datetime.fromisoformat: date, optional time, optional offset.
Returns (instant on an order-preserving microsecond scale, offset in minutes
when present).  Works on the character list of the string. -/
def fromisoformatL (cs : List Char) : Option (Int × Option Int) :=
  match readDigits 4 cs with
  | some (y, '-' :: r1) =>
      match readDigits 2 r1 with
      | some (mo, '-' :: r2) =>
          if mo = 0 ∨ mo > 12 then none else
          match readDigits 2 r2 with
          | some (d, r3) =>
              if d = 0 ∨ d > 31 then none else
              let dayUs : Int := (((y * 13 + mo) * 32 + d) * 86400000000 : Nat)
              match r3 with
              | [] => some (dayUs, none)
              | sep :: r4 =>
                  if sep = 'T' ∨ sep = ' ' then
                    match readTime r4 with
                    | some (us, []) => some (dayUs + (us : Int), none)
                    | some (us, r5) =>
                        match readOffset r5 with
                        | some ofs => some (dayUs + (us : Int), some ofs)
                        | none => none
                    | none => none
                  else none
          | _ => none
      | _ => none
  | _ => none

/-- Model of datetime.fromisoformat on a string. -/
def fromisoformat (s : String) : Option (Int × Option Int) :=
  fromisoformatL s.data

/-- PageState._parse_iso_z (page_state.py lines 100-108): rewrite a trailing Z
to +00:00, parse, and treat a missing offset as UTC.  The returned instant is
normalised to UTC by subtracting the offset.  The trailing-Z rewrite is done on
the character list of the string. -/
def parse_iso_z (ts : String) : Option Int :=
  let cs := ts.data
  let cs2 := if cs.getLast? = some 'Z' then cs.dropLast ++ ['+', '0', '0', ':', '0', '0'] else cs
  match fromisoformatL cs2 with
  | none => none
  | some (base, ofs) => some (base - (ofs.getD 0) * 60000000)

/-! ### Notion page and property model (src/worker/tasks.py helpers) -/

/-- A Notion property value, as read from the page JSON: the type tag plus the
payload the worker inspects. -/
inductive NProp where
  | url (u : Option String)
  | richText (segs : List String)
  | titleProp (segs : List String)
  | otherProp (t : String)
deriving Repr, DecidableEq

/-- A Notion page: its property map. -/
structure NPage where
  properties : List (String × NProp)
deriving Repr, DecidableEq

/-- Name of the write-back property (tasks.py line 21). -/
def NOTION_DRIVE_PROP : String := "Google Drive Link"

/-- Python str.strip: drop leading and trailing whitespace, modelled over the
character list of the string. -/
def pyStrip (s : String) : String :=
  ⟨List.reverse (List.dropWhile Char.isWhitespace
    (List.reverse (List.dropWhile Char.isWhitespace s.data)))⟩

/-- Python s[-n:]: the last n characters, modelled over the character list. -/
def pyTakeRight (s : String) (n : Nat) : String :=
  ⟨List.reverse (List.take n (List.reverse s.data))⟩

/-- Python s[:n]: the first n characters, modelled over the character list. -/
def pyTake (s : String) (n : Nat) : String :=
  ⟨List.take n s.data⟩

/-- _extract_prop_text (tasks.py lines 41-48): current human-readable value of
a url or rich_text property; anything else reads as empty. -/
def extract_prop_text (p : NProp) : String :=
  match p with
  | .url u => u.getD ""
  | .richText segs => pyStrip (String.join segs)
  | _ => ""

/-- Whether a property carries the title type tag. -/
def isTitleProp : NProp → Bool
  | .titleProp _ => true
  | _ => false

/-- The plain_text segments of a title property. -/
def titleSegs : NProp → List String
  | .titleProp segs => segs
  | _ => []

/-- _page_title_from_obj (tasks.py lines 89-94): first property of type title,
joined and stripped; empty when no title property exists. -/
def page_title_from_obj (p : NPage) : String :=
  match p.properties.find? (fun kv => isTitleProp kv.2) with
  | some kv => pyStrip (String.join (titleSegs kv.2))
  | none => ""

/-- A property value as sent in a PATCH body (tasks.py lines 69-75). -/
inductive PatchVal where
  | urlVal (u : String)
  | richTextVal (content : String)
deriving Repr, DecidableEq

/-! ### The world state: external systems, stores, and the effect trace -/

/-- External calls and store writes recorded in program order. -/
inductive Effect where
  | fetchPageCall (page_id : String)
  | patchPageCall (page_id : String) (props : List (String × PatchVal))
  | driveGetCall (folder_id : String)
  | driveSearchCall (name : String)
  | driveCreateCall (name : String)
  | drivePermissionCall (folder_id : String)
  | dbMarkProcessed (page_id : String) (edit_ts : String)
  | dbDlqPut (page_id : String) (edit_ts : String)
deriving Repr, DecidableEq

/-- A live Google Drive folder. -/
structure DriveFolder where
  id : String
  name : String
  web_link : String
deriving Repr, DecidableEq

/-- A dead-letter row (dlq table, src/app/models/dlq.py). -/
structure DlqEntry where
  page_id : String
  edit_ts : Int
  error : String
deriving Repr, DecidableEq

/-- The whole machine state: the Notion server, the Drive folder tree, the two
Postgres tables, an ambient clock, failure switches for the external calls, and
the effect trace. -/
structure World where
  notionPages : List (String × NPage)
  fetchFails : List String := []
  patchFails : Bool := false
  driveLive : List DriveFolder := []
  driveNextId : Nat := 0
  createFails : Bool := false
  ledger : Ledger := []
  dlq : List DlqEntry := []
  nowIso : String := "1970-01-01T00:00:00Z"
  trace : List Effect := []
deriving Repr, DecidableEq

/-- Record an effect at the end of the trace. -/
def World.emit (w : World) (e : Effect) : World := { w with trace := w.trace ++ [e] }

/-- _fetch_page (tasks.py lines 81-86): GET the page; an HTTP failure raises. -/
def fetch_page (w : World) (page_id : String) : Except String NPage × World :=
  let w := w.emit (.fetchPageCall page_id)
  if page_id ∈ w.fetchFails then (.error "HTTPStatusError: fetch failed", w)
  else
    match lookupAssoc w.notionPages page_id with
    | some p => (.ok p, w)
    | none => (.error "HTTPStatusError: 404 object_not_found", w)

/-- Value stored on the page once a PATCH with the given payload succeeds. -/
def applyPatchVal (v : PatchVal) : NProp :=
  match v with
  | .urlVal u => .url (some u)
  | .richTextVal c => .richText [c]

/-- Apply a PATCH properties body to a stored page. -/
def applyPatch (p : NPage) (props : List (String × PatchVal)) : NPage :=
  { properties := props.foldl (fun acc kv => setAssoc acc kv.1 (applyPatchVal kv.2)) p.properties }

/-- _patch_page_properties (tasks.py lines 24-38): PATCH the page with the
given properties dict; raises on an HTTP error. -/
def patch_page_properties (w : World) (page_id : String) (props : List (String × PatchVal)) :
    Except String Unit × World :=
  let w := w.emit (.patchPageCall page_id props)
  if w.patchFails then (.error "RuntimeError: Notion update failed", w)
  else
    match lookupAssoc w.notionPages page_id with
    | none => (.error "RuntimeError: Notion update failed (404)", w)
    | some p =>
        (.ok (), { w with notionPages := setAssoc w.notionPages page_id (applyPatch p props) })

/-- _set_drive_link (tasks.py lines 51-78): read the write-back property from
the fetched page; missing property raises; if the current value already equals
the link, do nothing; otherwise PATCH exactly that one property, with the
payload shape matching the declared type; any other type raises. -/
def set_drive_link (w : World) (page : NPage) (page_id link : String) :
    Except String Unit × World :=
  match lookupAssoc page.properties NOTION_DRIVE_PROP with
  | none => (.error "RuntimeError: property not found on page", w)
  | some prop =>
      let current := extract_prop_text prop
      if current = link then (.ok (), w)
      else
        match prop with
        | .url _ => patch_page_properties w page_id [(NOTION_DRIVE_PROP, .urlVal link)]
        | .richText _ => patch_page_properties w page_id [(NOTION_DRIVE_PROP, .richTextVal link)]
        | _ => (.error "RuntimeError: property has unexpected type", w)

/-! ### String-level ledger and dead-letter operations -/

/-- PageState.already_processed (page_state.py lines 58-80): parse the ISO
string (a malformed one raises before any write), then run the upsert. -/
def already_processed (w : World) (page_id edit_ts_iso : String) : Except String Bool × World :=
  match parse_iso_z edit_ts_iso with
  | none => (.error "ValueError: invalid isoformat string", w)
  | some dt =>
      let r := alreadyProcessedDB w.ledger page_id dt
      (.ok r.1, { w with ledger := r.2 })

/-- PageState.mark_processed (page_state.py lines 82-98): parse, then upsert
both timestamps; the call is recorded in the trace. -/
def mark_processed (w : World) (page_id edit_ts_iso : String) : Except String Unit × World :=
  match parse_iso_z edit_ts_iso with
  | none => (.error "ValueError: invalid isoformat string", w)
  | some dt =>
      (.ok (), { w with ledger := markProcessedDB w.ledger page_id dt,
                        trace := w.trace ++ [.dbMarkProcessed page_id edit_ts_iso] })

/-- DLQ.put (dlq.py lines 28-37): parse the ISO string, truncate the error text
to 8000 characters, append one row; the call is recorded in the trace. -/
def dlq_put (w : World) (page_id edit_ts_iso error : String) : Except String Unit × World :=
  match parse_iso_z edit_ts_iso with
  | none => (.error "ValueError: invalid isoformat string", w)
  | some dt =>
      (.ok (), { w with
        dlq := w.dlq ++ [{ page_id := page_id, edit_ts := dt, error := pyTake error 8000 }],
        trace := w.trace ++ [.dbDlqPut page_id edit_ts_iso] })

/-! ### The resource reconciler -/

/-- Modelled from the spec: clearing the cached handle (spec section 4.2 step 1,
set to empty) when the live resource is gone. -/
def clear_drive_info (led : Ledger) (id : String) : Ledger :=
  match lookupRow led id with
  | none => led
  | some row => setRow led id { row with drive_folder_id := none, drive_link := none }

/-- GoogleDriveClient.get_folder (drive/client.py lines 193-216): fetch a folder
by id; reports distinguishably when it no longer exists. -/
def drive_get_folder (w : World) (folder_id : String) : Option DriveFolder × World :=
  let w := w.emit (.driveGetCall folder_id)
  (w.driveLive.find? (fun f => f.id == folder_id), w)

/-- GoogleDriveClient.find_folder (drive/client.py lines 170-191): exact-name
search scoped to the configured parent, first match or none. -/
def drive_find_folder (w : World) (name : String) : Option DriveFolder × World :=
  let w := w.emit (.driveSearchCall name)
  (w.driveLive.find? (fun f => f.name == name), w)

/-- GoogleDriveClient.create_folder (drive/client.py lines 60-100): create the
folder, grant the anyone-with-link reader permission, return id and link. -/
def drive_create_folder (w : World) (name : String) : Except String DriveFolder × World :=
  let w := w.emit (.driveCreateCall name)
  if w.createFails then (.error "HttpError: Drive create failed", w)
  else
    let fid := "folder-" ++ toString w.driveNextId
    let f : DriveFolder :=
      { id := fid, name := name,
        web_link := "https://drive.google.com/drive/folders/" ++ fid }
    let w := { w with driveLive := w.driveLive ++ [f], driveNextId := w.driveNextId + 1 }
    let w := w.emit (.drivePermissionCall fid)
    (.ok f, w)

/-- Modelled from the spec: steps 2 and 3 of the reconciler (spec section 4.2):
search the external system by exact name, caching and returning a match;
otherwise create, grant the public permission, cache and return. -/
def get_or_create_folder_steps23 (w : World) (page_id title : String) :
    Except String (String × String) × World :=
  let r := drive_find_folder w title
  match r.1 with
  | some f =>
      (.ok (f.id, f.web_link),
        { r.2 with ledger := set_drive_info r.2.ledger page_id f.id f.web_link })
  | none =>
      match drive_create_folder r.2 title with
      | (.ok f, w2) =>
          (.ok (f.id, f.web_link),
            { w2 with ledger := set_drive_info w2.ledger page_id f.id f.web_link })
      | (.error e, w2) => (.error e, w2)

/-- Modelled from the spec: get_or_create_folder, the Resource Reconciler
(imported in src/worker/tasks.py line 5 from app.db but absent from the
sources).  Spec section 4.2, contract get_or_create(record_id, desired_name):
step 1 consults the Edit Ledger cache and fetches the live resource by id,
returning the cached id with the refreshed link when it exists and clearing the
stale handle when it is gone; then falls through to the search and create
steps. -/
def get_or_create_folder (w : World) (page_id title : String) :
    Except String (String × String) × World :=
  let cached := get_drive_info w.ledger page_id
  match cached.1 with
  | some fid =>
      let r := drive_get_folder w fid
      match r.1 with
      | some f => (.ok (fid, f.web_link), r.2)
      | none =>
          let w2 := { r.2 with ledger := clear_drive_info r.2.ledger page_id }
          get_or_create_folder_steps23 w2 page_id title
  | none => get_or_create_folder_steps23 w page_id title

/-! ### The processing orchestrator -/

/-- The result dict of process_page. -/
inductive PResult where
  | skip (page_id : String)
  | ok (page_id title drive_folder_id drive_link : String)
deriving Repr, DecidableEq

/-- Decidable equality of computation outcomes, used to evaluate runs. -/
instance instDecEqExcept {ε α : Type} [DecidableEq ε] [DecidableEq α] :
    DecidableEq (Except ε α) := fun a b =>
  match a, b with
  | .error e1, .error e2 =>
      if h : e1 = e2 then .isTrue (by rw [h])
      else .isFalse (fun hc => h (Except.error.inj hc))
  | .error e1, .ok a2 => .isFalse (fun hc => Except.noConfusion hc)
  | .ok a1, .error e2 => .isFalse (fun hc => Except.noConfusion hc)
  | .ok a1, .ok a2 =>
      if h : a1 = a2 then .isTrue (by rw [h])
      else .isFalse (fun hc => h (Except.ok.inj hc))

/-- The task payload. -/
structure Payload where
  page_id : String
  edit_ts : Option String := none
deriving Repr, DecidableEq

/-- The try-block of process_page (tasks.py lines 110-129): fetch the page,
derive the title (with the deterministic fallback from the last 6 characters of
the id), reconcile the Drive folder, write the link back, mark processed, and
build the ok result. -/
def process_page_body (w : World) (page_id edit_ts : String) : Except String PResult × World :=
  match fetch_page w page_id with
  | (.error e, w1) => (.error e, w1)
  | (.ok page, w1) =>
      let t0 := page_title_from_obj page
      let title := if t0 = "" then "notion-page-" ++ pyTakeRight page_id 6 else t0
      match get_or_create_folder w1 page_id title with
      | (.error e, w2) => (.error e, w2)
      | (.ok fl, w2) =>
          match set_drive_link w2 page page_id fl.2 with
          | (.error e, w3) => (.error e, w3)
          | (.ok _, w3) =>
              match mark_processed w3 page_id edit_ts with
              | (.error e, w4) => (.error e, w4)
              | (.ok _, w4) => (.ok (.ok page_id title fl.1 fl.2), w4)

/-- process_page (tasks.py lines 97-135): default the timestamp to the ambient
clock, short-circuit at the idempotency check, otherwise run the protected
body; on its failure append one dead-letter entry and re-raise. -/
def process_page (w : World) (payload : Payload) : Except String PResult × World :=
  let page_id := payload.page_id
  let edit_ts := match payload.edit_ts with
    | none => w.nowIso
    | some ts => ts
  match already_processed w page_id edit_ts with
  | (.error e, w1) => (.error e, w1)
  | (.ok true, w1) => (.ok (.skip page_id), w1)
  | (.ok false, w1) =>
      match process_page_body w1 page_id edit_ts with
      | (.ok res, w2) => (.ok res, w2)
      | (.error e, w2) =>
          match dlq_put w2 page_id edit_ts e with
          | (.error e2, w3) => (.error e2, w3)
          | (.ok _, w3) => (.error e, w3)

/-- The payload submitted by the /enqueue-test endpoint (main.py lines 26-36):
the literal string demo as edit_ts. -/
def enqueue_test_payload (page_id : String) : Payload :=
  { page_id := page_id, edit_ts := some "demo" }

/-! ### The poll driver (src/app/main.py, src/notion/database.py) -/

/-- A page as returned by the database query: id and last_edited_time. -/
structure QPage where
  id : String
  last_edited_time : String
deriving Repr, DecidableEq

/-- Inner loop of query_since: advance the running maximum over one batch,
comparing timestamps as strings exactly as the source does. -/
def batchMaxTs (m : String) (batch : List QPage) : String :=
  batch.foldl (fun acc p => if p.last_edited_time > acc then p.last_edited_time else acc) m

/-- NotionDatabase.query_since (database.py lines 56-90): accumulate the pages
of every paginated response and track the maximum last_edited_time seen,
starting from the given after timestamp. -/
def query_since (batches : List (List QPage)) (after_iso : String) : List QPage × String :=
  match batches with
  | [] => ([], after_iso)
  | b :: rest =>
      let r := query_since rest (batchMaxTs after_iso b)
      (b ++ r.1, r.2)

/-- The default cursor (database.py line 46). -/
def EPOCH_CURSOR : String := "1970-01-01T00:00:00Z"

/-- NotionDatabase.load_cursor (database.py lines 41-50): the stored value, or
the epoch default when none exists. -/
def load_cursor (stored : Option String) : String := stored.getD EPOCH_CURSOR

/-- The externally visible actions of one poll, in program order. -/
inductive PollAct where
  | saveCursor (ts : String)
  | enqueue (page_id : String) (edit_ts : String)
deriving Repr, DecidableEq

/-- The response body of the poll endpoint. -/
structure PollOut where
  enqueued : Nat
  cursor : String
deriving Repr, DecidableEq

/-- poll_notion (main.py lines 39-74): load the cursor, query, save the new
cursor, then enqueue one process_page unit per page — in exactly that order.
The action list records persistence and submissions in program order. -/
def poll_notion (stored : Option String) (batches : List (List QPage)) :
    PollOut × List PollAct :=
  let cursor := load_cursor stored
  let r := query_since batches cursor
  let acts := PollAct.saveCursor r.2 :: r.1.map (fun p => PollAct.enqueue p.id p.last_edited_time)
  ({ enqueued := r.1.length, cursor := r.2 }, acts)

/-- Execute a prefix of the poll actions against the cursor store and the task
queue; interruption partway is modelled by running only the first k actions. -/
def runPollActs (stored : Option String) (acts : List PollAct) :
    Option String × List (String × String) :=
  match acts with
  | [] => (stored, [])
  | .saveCursor ts :: rest => runPollActs (some ts) rest
  | .enqueue pid ets :: rest =>
      let r := runPollActs stored rest
      (r.1, (pid, ets) :: r.2)

/-! ### Observers and invariants used by the statements -/

/-- The last_seen_edit column of the row for id, when the row exists. -/
def lastSeenOf (led : Ledger) (id : String) : Option Int :=
  (lookupRow led id).bind Row.last_seen_edit

/-- The last_processed_edit column of the row for id, when the row exists. -/
def lastProcessedOf (led : Ledger) (id : String) : Option Int :=
  (lookupRow led id).bind Row.last_processed_edit

/-- The per-record invariant exactly as the spec states it: whenever both
timestamps are set, last_processed_edit is at most last_seen_edit; and the two
cached drive fields are either both absent or both populated. -/
def StatedRowInv (r : Row) : Prop :=
  (∀ lp ls, r.last_processed_edit = some lp → r.last_seen_edit = some ls → lp ≤ ls)
  ∧ (r.drive_folder_id = none ↔ r.drive_link = none)

/-- The stated invariant over every row of the table. -/
def StatedLedInv (led : Ledger) : Prop := ∀ p ∈ led, StatedRowInv p.2

/-- The inductive strengthening of the invariant: a set last_processed_edit
forces last_seen_edit to be set and at least as large. -/
def RowInv (r : Row) : Prop :=
  (∀ lp, r.last_processed_edit = some lp → ∃ ls, r.last_seen_edit = some ls ∧ lp ≤ ls)
  ∧ (r.drive_folder_id = none ↔ r.drive_link = none)

/-- The strengthened invariant over every row of the table. -/
def LedInv (led : Ledger) : Prop := ∀ p ∈ led, RowInv p.2

/-- A sequence of already_processed deliveries for one record with no
intervening mark_processed: the list of returned booleans and the final table. -/
def deliver (led : Ledger) (id : String) : List Int → List Bool × Ledger
  | [] => ([], led)
  | t :: ts =>
      let r := alreadyProcessedDB led id t
      let rest := deliver r.2 id ts
      (r.1 :: rest.1, rest.2)

/-! ### Concrete states used to instantiate the theorems -/

/-- A page with a title property and an empty url write-back property. -/
def pgHouse : NPage :=
  { properties := [("Name", NProp.titleProp ["My House"]),
                   ("Google Drive Link", NProp.url none)] }

/-- The instant of 2025-01-01T00:00:00Z on the model scale. -/
def T2025 : Int := 72786211200000000

/-- A healthy world holding the page p1. -/
def wHealthy : World := { notionPages := [("p1", pgHouse)] }

/-- The same world with a failing Drive create call. -/
def wCreateFail : World := { notionPages := [("p1", pgHouse)], createFails := true }

/-- The state wCreateFail reaches after the idempotency check and the failing
protected region of process_page for (p1, 2025-01-01T00:00:00Z). -/
def wCreateFailMid : World :=
  { notionPages := [("p1", pgHouse)], createFails := true,
    ledger := [("p1", { last_seen_edit := some T2025 })],
    trace := [Effect.fetchPageCall "p1", Effect.driveSearchCall "My House",
              Effect.driveCreateCall "My House"] }

/-- The state wHealthy reaches after one successful process_page run for
(p1, 2025-01-01T00:00:00Z). -/
def doneLink : String := "https://drive.google.com/drive/folders/folder-0"

def wHealthyDone : World :=
  { notionPages := [("p1", { properties := [("Name", NProp.titleProp ["My House"]), ("Google Drive Link", NProp.url (some doneLink))] })],
    driveLive := [{ id := "folder-0", name := "My House", web_link := doneLink }],
    driveNextId := 1,
    ledger := [("p1", { last_processed_edit := some T2025, last_seen_edit := some T2025, drive_folder_id := some "folder-0", drive_link := some doneLink })],
    trace := [Effect.fetchPageCall "p1", Effect.driveSearchCall "My House",
      Effect.driveCreateCall "My House", Effect.drivePermissionCall "folder-0",
      Effect.patchPageCall "p1" [("Google Drive Link", PatchVal.urlVal doneLink)],
      Effect.dbMarkProcessed "p1" "2025-01-01T00:00:00Z"] }

/-! ## Basic lemmas about the association-list stores -/

theorem lookupAssoc_setAssoc_self {α : Type} (l : List (String × α)) (k : String) (v : α) :
    lookupAssoc (setAssoc l k v) k = some v := by
  induction l with
  | nil => simp [setAssoc, lookupAssoc]
  | cons p rest ih =>
      obtain ⟨k2, v2⟩ := p
      by_cases hk : k2 = k
      · simp [setAssoc, lookupAssoc, hk]
      · simp [setAssoc, lookupAssoc, hk, ih]

theorem lookupAssoc_setAssoc_ne {α : Type} (l : List (String × α)) (k k2 : String) (v : α)
    (h : k2 ≠ k) : lookupAssoc (setAssoc l k v) k2 = lookupAssoc l k2 := by
  have hne : ¬ k = k2 := fun h2 => h h2.symm
  induction l with
  | nil => simp [setAssoc, lookupAssoc, hne]
  | cons p rest ih =>
      obtain ⟨k3, v3⟩ := p
      by_cases hk : k3 = k
      · subst hk
        simp only [setAssoc, if_pos rfl, lookupAssoc]
        rw [if_neg hne, if_neg hne]
      · simp only [setAssoc, if_neg hk, lookupAssoc]
        by_cases hk2 : k3 = k2
        · rw [if_pos hk2, if_pos hk2]
        · rw [if_neg hk2, if_neg hk2, ih]

theorem setAssoc_eq_of_lookup {α : Type} (l : List (String × α)) (k : String) (v : α)
    (h : lookupAssoc l k = some v) : setAssoc l k v = l := by
  induction l with
  | nil => simp [lookupAssoc] at h
  | cons p rest ih =>
      obtain ⟨k2, v2⟩ := p
      by_cases hk : k2 = k
      · simp [lookupAssoc, hk] at h
        simp [setAssoc, hk, h]
      · simp [lookupAssoc, hk] at h
        simp [setAssoc, hk, ih h]

theorem lookupRow_setRow_self (led : Ledger) (id : String) (r : Row) :
    lookupRow (setRow led id r) id = some r := lookupAssoc_setAssoc_self led id r

theorem setRow_eq_of_lookup (led : Ledger) (id : String) (r : Row)
    (h : lookupRow led id = some r) : setRow led id r = led := setAssoc_eq_of_lookup led id r h

theorem le_greatestO (a : Option Int) (b : Int) : b ≤ greatestO a b := by
  cases a with
  | none => exact le_refl b
  | some x => exact le_max_right x b

/-! ## Claim C2: the ledger contract of already_processed and mark_processed -/

/-- C2.  After mark_processed(id, t2) with t1 ≤ t2, already_processed(id, t1)
returns true; in general already_processed(id, t) returns true iff the
pre-existing last_processed_edit is set and at least t; and the same call
advances last_seen_edit to the maximum of the existing value and t. -/
theorem claim_C2_ledger_contract (led : Ledger) (id : String) (t1 t2 t : Int)
    (h : t1 ≤ t2) :
    (alreadyProcessedDB (markProcessedDB led id t2) id t1).1 = true
    ∧ ((alreadyProcessedDB led id t).1 = true ↔
        ∃ lp, lastProcessedOf led id = some lp ∧ t ≤ lp)
    ∧ lastSeenOf (alreadyProcessedDB led id t).2 id
        = some (greatestO (lastSeenOf led id) t) := by
  refine ⟨?_, ?_, ?_⟩
  · cases hl : lookupRow led id with
    | none =>
        have hms := lookupRow_setRow_self led id
          { last_processed_edit := some t2, last_seen_edit := some t2 }
        simp [markProcessedDB, alreadyProcessedDB, hl, hms, ge_iff_le, h]
    | some row =>
        have hms := lookupRow_setRow_self led id
          { row with last_processed_edit := some (greatestO row.last_processed_edit t2),
                     last_seen_edit := some (greatestO row.last_seen_edit t2) }
        simp [markProcessedDB, alreadyProcessedDB, hl, hms, ge_iff_le]
        exact le_trans h (le_greatestO row.last_processed_edit t2)
  · cases hl : lookupRow led id with
    | none => simp [alreadyProcessedDB, lastProcessedOf, hl]
    | some row =>
        cases hlp : row.last_processed_edit with
        | none => simp [alreadyProcessedDB, lastProcessedOf, hl, hlp]
        | some lp => simp [alreadyProcessedDB, lastProcessedOf, hl, hlp, ge_iff_le]
  · cases hl : lookupRow led id with
    | none =>
        have hms := lookupRow_setRow_self led id { last_seen_edit := some t }
        simp [alreadyProcessedDB, lastSeenOf, hl, hms, greatestO]
    | some row =>
        have hms := lookupRow_setRow_self led id
          { row with last_seen_edit := some (greatestO row.last_seen_edit t) }
        simp [alreadyProcessedDB, lastSeenOf, hl, hms]

/-- Witness for C2 at concrete inputs. -/
theorem claim_C2_ledger_contract_witness :
    (alreadyProcessedDB (markProcessedDB [] "p" 1) "p" 0).1 = true
    ∧ ((alreadyProcessedDB [] "p" 5).1 = true ↔
        ∃ lp, lastProcessedOf [] "p" = some lp ∧ 5 ≤ lp)
    ∧ lastSeenOf (alreadyProcessedDB [] "p" 5).2 "p"
        = some (greatestO (lastSeenOf [] "p") 5) :=
  claim_C2_ledger_contract [] "p" 0 1 5 (by decide)

/-! ## Claim C6: invariant preservation by the ledger operations -/

theorem ledInv_setRow (led : Ledger) (id : String) (r : Row)
    (hled : LedInv led) (hr : RowInv r) : LedInv (setRow led id r) := by
  induction led with
  | nil =>
      intro p hp
      simp only [setRow, setAssoc, List.mem_singleton] at hp
      rw [hp]
      exact hr
  | cons q rest ih =>
      obtain ⟨k2, v2⟩ := q
      intro p hp
      by_cases hk : k2 = id
      · rw [show setRow ((k2, v2) :: rest) id r = (k2, r) :: rest by
              simp [setRow, setAssoc, hk]] at hp
        rcases List.mem_cons.mp hp with hp2 | hp2
        · rw [hp2]; exact hr
        · exact hled p (List.mem_cons_of_mem _ hp2)
      · rw [show setRow ((k2, v2) :: rest) id r = (k2, v2) :: setRow rest id r by
              simp [setRow, setAssoc, hk]] at hp
        rcases List.mem_cons.mp hp with hp2 | hp2
        · rw [hp2]; exact hled (k2, v2) (List.mem_cons_self _ _)
        · exact ih (fun p2 hp3 => hled p2 (List.mem_cons_of_mem _ hp3)) p hp2

theorem ledInv_lookup (led : Ledger) (id : String) (r : Row)
    (hled : LedInv led) (h : lookupRow led id = some r) : RowInv r := by
  induction led with
  | nil => simp [lookupRow, lookupAssoc] at h
  | cons q rest ih =>
      obtain ⟨k2, v2⟩ := q
      by_cases hk : k2 = id
      · simp only [lookupRow, lookupAssoc, if_pos hk, Option.some.injEq] at h
        rw [← h]
        exact hled (k2, v2) (List.mem_cons_self _ _)
      · simp only [lookupRow, lookupAssoc, if_neg hk] at h
        exact ih (fun p2 hp2 => hled p2 (List.mem_cons_of_mem _ hp2)) h

theorem rowInv_implies_stated (r : Row) (hr : RowInv r) : StatedRowInv r := by
  refine ⟨?_, hr.2⟩
  intro lp ls h1 h2
  obtain ⟨ls2, hls2, hle⟩ := hr.1 lp h1
  rw [h2] at hls2
  simp only [Option.some.injEq] at hls2
  omega

/-- C6 fails as stated: the row in which last_processed_edit is set while
last_seen_edit is NULL satisfies the stated invariant vacuously, yet one
already_processed call on it produces a row with both set and
last_processed_edit greater than last_seen_edit. -/
theorem claim_C6_counterexample :
    StatedLedInv [("p", { last_processed_edit := some 1 })]
    ∧ ¬ StatedLedInv (alreadyProcessedDB [("p", { last_processed_edit := some 1 })] "p" 0).2 := by
  constructor
  · intro p hp
    simp only [List.mem_singleton] at hp
    rw [hp]
    constructor
    · intro lp ls h1 h2
      simp at h2
    · simp
  · intro hinv
    have hcomp : (alreadyProcessedDB [("p", ({ last_processed_edit := some 1 } : Row))] "p" 0).2
        = [("p", { last_processed_edit := some 1, last_seen_edit := some 0 })] := by decide
    rw [hcomp] at hinv
    have h2 := hinv ("p", { last_processed_edit := some 1, last_seen_edit := some 0 })
      (List.mem_cons_self _ _)
    have h3 := h2.1 1 0 rfl rfl
    omega

/-- C6 amended: every ledger operation preserves the strengthened per-record
invariant (a set last_processed_edit forces last_seen_edit to be set and at
least as large; the cached drive fields are both absent or both populated);
the strengthened invariant implies the stated one, and get_drive_info reads a
pair that is both absent or both populated. -/
theorem claim_C6_amended (led : Ledger) (id : String) (t : Int) (fid lnk : String)
    (h : LedInv led) :
    LedInv (alreadyProcessedDB led id t).2
    ∧ LedInv (markProcessedDB led id t)
    ∧ LedInv (set_drive_info led id fid lnk)
    ∧ ((get_drive_info led id).1 = none ↔ (get_drive_info led id).2 = none)
    ∧ StatedLedInv led := by
  refine ⟨?_, ?_, ?_, ?_, fun p hp => rowInv_implies_stated p.2 (h p hp)⟩
  · cases hl : lookupRow led id with
    | none =>
        simp only [alreadyProcessedDB, hl]
        refine ledInv_setRow led id _ h ⟨?_, by simp⟩
        intro lp hlp
        simp at hlp
    | some row =>
        have hr := ledInv_lookup led id row h hl
        simp only [alreadyProcessedDB, hl]
        refine ledInv_setRow led id _ h ⟨?_, hr.2⟩
        intro lp hlp
        obtain ⟨ls, hls, hle⟩ := hr.1 lp hlp
        refine ⟨greatestO row.last_seen_edit t, rfl, ?_⟩
        rw [hls]
        exact le_trans hle (le_max_left ls t)
  · cases hl : lookupRow led id with
    | none =>
        simp only [markProcessedDB, hl]
        refine ledInv_setRow led id _ h ⟨?_, by simp⟩
        intro lp hlp
        simp only [Option.some.injEq] at hlp
        exact ⟨t, rfl, by omega⟩
    | some row =>
        have hr := ledInv_lookup led id row h hl
        simp only [markProcessedDB, hl]
        refine ledInv_setRow led id _ h ⟨?_, hr.2⟩
        intro lp hlp
        simp only [Option.some.injEq] at hlp
        refine ⟨greatestO row.last_seen_edit t, rfl, ?_⟩
        rw [← hlp]
        cases hlp0 : row.last_processed_edit with
        | none => simpa [greatestO] using le_greatestO row.last_seen_edit t
        | some lp0 =>
            obtain ⟨ls0, hls0, hle0⟩ := hr.1 lp0 hlp0
            rw [hls0]
            simp only [greatestO]
            exact max_le_max hle0 (le_refl t)
  · cases hl : lookupRow led id with
    | none =>
        simp only [set_drive_info, hl]
        refine ledInv_setRow led id _ h ⟨?_, by simp⟩
        intro lp hlp
        simp at hlp
    | some row =>
        have hr := ledInv_lookup led id row h hl
        simp only [set_drive_info, hl]
        exact ledInv_setRow led id _ h ⟨hr.1, by simp⟩
  · cases hl : lookupRow led id with
    | none => simp [get_drive_info, hl]
    | some row =>
        have hr := ledInv_lookup led id row h hl
        simpa [get_drive_info, hl] using hr.2

/-- Witness for the amended C6 at concrete inputs. -/
theorem claim_C6_amended_witness :
    LedInv (alreadyProcessedDB [] "p" 0).2
    ∧ LedInv (markProcessedDB [] "p" 0)
    ∧ LedInv (set_drive_info [] "p" "f" "l")
    ∧ ((get_drive_info [] "p").1 = none ↔ (get_drive_info [] "p").2 = none)
    ∧ StatedLedInv [] :=
  claim_C6_amended [] "p" 0 "f" "l" (fun p hp => absurd hp (List.not_mem_nil p))

/-! ## Claim C7: out-of-order deliveries before any mark_processed -/

theorem alreadyProcessedDB_of_lp_none (led : Ledger) (id : String) (t : Int)
    (h : lastProcessedOf led id = none) :
    (alreadyProcessedDB led id t).1 = false
    ∧ lastProcessedOf (alreadyProcessedDB led id t).2 id = none
    ∧ lastSeenOf (alreadyProcessedDB led id t).2 id
        = some (greatestO (lastSeenOf led id) t) := by
  cases hl : lookupRow led id with
  | none =>
      have hms := lookupRow_setRow_self led id { last_seen_edit := some t }
      simp [alreadyProcessedDB, hl, hms, lastProcessedOf, lastSeenOf, greatestO]
  | some row =>
      have hlp : row.last_processed_edit = none := by
        simpa [lastProcessedOf, hl] using h
      have hms := lookupRow_setRow_self led id
        { row with last_seen_edit := some (greatestO row.last_seen_edit t) }
      rw [hlp] at hms
      simp [alreadyProcessedDB, hl, hlp, hms, lastProcessedOf, lastSeenOf]

theorem deliver_no_mark (led : Ledger) (id : String) (ts : List Int)
    (h : lastProcessedOf led id = none) :
    (∀ b ∈ (deliver led id ts).1, b = false)
    ∧ lastProcessedOf (deliver led id ts).2 id = none
    ∧ lastSeenOf (deliver led id ts).2 id
        = ts.foldl (fun a t => some (greatestO a t)) (lastSeenOf led id) := by
  induction ts generalizing led with
  | nil => simpa [deliver] using h
  | cons t rest ih =>
      obtain ⟨hb, hlp2, hls2⟩ := alreadyProcessedDB_of_lp_none led id t h
      obtain ⟨ih1, ih2, ih3⟩ := ih (alreadyProcessedDB led id t).2 hlp2
      refine ⟨?_, by simpa [deliver] using ih2, ?_⟩
      · intro b hb2
        simp only [deliver, List.mem_cons] at hb2
        rcases hb2 with hb2 | hb2
        · rw [hb2]; exact hb
        · exact ih1 b hb2
      · simp only [deliver, List.foldl]
        rw [ih3, hls2]

theorem foldl_greatestO_spec (ts : List Int) :
    ∀ a : Int, ∃ m, ts.foldl (fun acc t => some (greatestO acc t)) (some a) = some m
      ∧ (m = a ∨ m ∈ ts) ∧ a ≤ m ∧ ∀ u ∈ ts, u ≤ m := by
  induction ts with
  | nil =>
      intro a
      exact ⟨a, rfl, Or.inl rfl, le_refl a, by simp⟩
  | cons t rest ih =>
      intro a
      obtain ⟨m, hm, hmem, hle, hub⟩ := ih (greatestO (some a) t)
      refine ⟨m, by simpa [List.foldl] using hm, ?_, ?_, ?_⟩
      · rcases hmem with hmem | hmem
        · rcases max_choice a t with hc | hc
          · exact Or.inl (by rw [hmem]; simpa [greatestO] using hc)
          · refine Or.inr (List.mem_cons.mpr (Or.inl ?_))
            rw [hmem]; simpa [greatestO] using hc
        · exact Or.inr (List.mem_cons.mpr (Or.inr hmem))
      · exact le_trans (show a ≤ greatestO (some a) t from le_max_left a t) hle
      · intro u hu
        rcases List.mem_cons.mp hu with hu | hu
        · rw [hu]
          exact le_trans (show t ≤ greatestO (some a) t from le_max_right a t) hle
        · exact hub u hu

theorem foldl_greatestO_perm {ts1 ts2 : List Int} (h : List.Perm ts1 ts2) :
    ∀ a : Option Int, ts1.foldl (fun acc t => some (greatestO acc t)) a
      = ts2.foldl (fun acc t => some (greatestO acc t)) a := by
  induction h with
  | nil => intro a; rfl
  | cons x h2 ih => intro a; simpa [List.foldl] using ih _
  | swap x y l =>
      intro a
      simp only [List.foldl]
      have hstep : some (greatestO (some (greatestO a y)) x)
          = some (greatestO (some (greatestO a x)) y) := by
        cases a with
        | none => simp [greatestO, max_comm]
        | some z =>
            simp only [greatestO, Option.some.injEq]
            rw [max_assoc, max_comm y x, max_assoc]
      rw [hstep]
  | trans h1 h2 ih1 ih2 => intro a; rw [ih1, ih2]

/-- C7.  A finite sequence of already_processed deliveries for a fresh record
with no intervening mark_processed returns false at every call; the final
last_seen_edit is the maximum of all delivered timestamps; and the final
last_seen_edit is invariant under any reordering of the deliveries. -/
theorem claim_C7_out_of_order (led : Ledger) (id : String) (ts : List Int)
    (h : lookupRow led id = none) :
    (∀ b ∈ (deliver led id ts).1, b = false)
    ∧ (ts ≠ [] → ∃ m, lastSeenOf (deliver led id ts).2 id = some m
        ∧ m ∈ ts ∧ ∀ u ∈ ts, u ≤ m)
    ∧ (∀ ts2, List.Perm ts ts2 →
        lastSeenOf (deliver led id ts2).2 id = lastSeenOf (deliver led id ts).2 id) := by
  have hlp : lastProcessedOf led id = none := by simp [lastProcessedOf, h]
  have hls : lastSeenOf led id = none := by simp [lastSeenOf, h]
  obtain ⟨h1, _, h3⟩ := deliver_no_mark led id ts hlp
  refine ⟨h1, ?_, ?_⟩
  · intro hne
    cases ts with
    | nil => exact absurd rfl hne
    | cons t rest =>
        obtain ⟨m, hm, hmem, hle, hub⟩ := foldl_greatestO_spec rest t
        refine ⟨m, ?_, ?_, ?_⟩
        · rw [h3, hls]
          simpa [List.foldl, greatestO] using hm
        · rcases hmem with hmem | hmem
          · exact List.mem_cons.mpr (Or.inl hmem)
          · exact List.mem_cons.mpr (Or.inr hmem)
        · intro u hu
          rcases List.mem_cons.mp hu with hu | hu
          · rw [hu]; exact hle
          · exact hub u hu
  · intro ts2 hperm
    obtain ⟨_, _, h3b⟩ := deliver_no_mark led id ts2 hlp
    rw [h3, h3b, hls, foldl_greatestO_perm hperm]

/-- Witness for C7 at concrete inputs. -/
theorem claim_C7_out_of_order_witness :
    (∀ b ∈ (deliver [] "p" [1, 3, 2]).1, b = false)
    ∧ ([1, 3, 2] ≠ ([] : List Int) → ∃ m, lastSeenOf (deliver [] "p" [1, 3, 2]).2 "p" = some m
        ∧ m ∈ [1, 3, 2] ∧ ∀ u ∈ [1, 3, 2], u ≤ m)
    ∧ (∀ ts2, List.Perm [1, 3, 2] ts2 →
        lastSeenOf (deliver [] "p" ts2).2 "p" = lastSeenOf (deliver [] "p" [1, 3, 2]).2 "p") :=
  claim_C7_out_of_order [] "p" [1, 3, 2] rfl

/-! ## Claims C8 and C4: the poll driver -/

theorem if_gt_eq_max (m x : String) : (if x > m then x else m) = max m x := by
  rcases le_or_lt x m with h | h
  · rw [if_neg (not_lt_of_le h), max_eq_left h]
  · rw [if_pos h, max_eq_right h.le]

theorem batchMaxTs_eq_foldl (m : String) (b : List QPage) :
    batchMaxTs m b = (b.map QPage.last_edited_time).foldl max m := by
  induction b generalizing m with
  | nil => rfl
  | cons p rest ih =>
      simp only [batchMaxTs, List.foldl, List.map] at *
      rw [if_gt_eq_max, ih]

theorem query_since_fst (batches : List (List QPage)) (after : String) :
    (query_since batches after).1 = batches.flatten := by
  induction batches generalizing after with
  | nil => rfl
  | cons b rest ih => simp [query_since, List.flatten, ih]

theorem query_since_snd (batches : List (List QPage)) (after : String) :
    (query_since batches after).2
      = (batches.flatten.map QPage.last_edited_time).foldl max after := by
  induction batches generalizing after with
  | nil => rfl
  | cons b rest ih =>
      simp only [query_since, List.flatten_cons, List.map_append, List.foldl_append]
      rw [ih, batchMaxTs_eq_foldl]

theorem le_foldl_max (a : String) (l : List String) : a ≤ l.foldl max a := by
  induction l generalizing a with
  | nil => exact le_refl a
  | cons x rest ih => exact le_trans (le_max_left a x) (ih (max a x))

/-- C8.  Every poll returns enqueued equal to the number of pages found across
all pagination batches and a cursor equal to the running maximum of the loaded
cursor and every last_edited_time seen; the cursor never decreases, and a poll
finding nothing returns enqueued 0 and the loaded cursor unchanged. -/
theorem claim_C8_poll_cursor (stored : Option String) (batches : List (List QPage)) :
    (poll_notion stored batches).1.enqueued = batches.flatten.length
    ∧ (poll_notion stored batches).1.cursor
        = (batches.flatten.map QPage.last_edited_time).foldl max (load_cursor stored)
    ∧ load_cursor stored ≤ (poll_notion stored batches).1.cursor
    ∧ (batches.flatten = [] →
        (poll_notion stored batches).1.enqueued = 0
        ∧ (poll_notion stored batches).1.cursor = load_cursor stored) := by
  refine ⟨?_, ?_, ?_, ?_⟩
  · simp [poll_notion, query_since_fst]
  · simp [poll_notion, query_since_snd]
  · simp only [poll_notion]
    rw [query_since_snd]
    exact le_foldl_max _ _
  · intro hempty
    constructor
    · simp [poll_notion, query_since_fst, hempty]
    · simp [poll_notion, query_since_snd, hempty]

/-- Witness for C8 at concrete inputs (C8 has a conditional conjunct). -/
theorem claim_C8_poll_cursor_witness :
    (poll_notion (some "1970-01-01T00:00:00Z")
        [[{ id := "p1", last_edited_time := "2025-08-12T12:00:00.000Z" },
          { id := "p2", last_edited_time := "2025-08-12T12:01:00.000Z" }]]).1.enqueued
      = ([[{ id := "p1", last_edited_time := "2025-08-12T12:00:00.000Z" },
           { id := "p2", last_edited_time := "2025-08-12T12:01:00.000Z" }]] :
          List (List QPage)).flatten.length
    ∧ (poll_notion (some "1970-01-01T00:00:00Z")
        [[{ id := "p1", last_edited_time := "2025-08-12T12:00:00.000Z" },
          { id := "p2", last_edited_time := "2025-08-12T12:01:00.000Z" }]]).1.cursor
      = (([[{ id := "p1", last_edited_time := "2025-08-12T12:00:00.000Z" },
            { id := "p2", last_edited_time := "2025-08-12T12:01:00.000Z" }]] :
          List (List QPage)).flatten.map QPage.last_edited_time).foldl max
          (load_cursor (some "1970-01-01T00:00:00Z"))
    ∧ load_cursor (some "1970-01-01T00:00:00Z")
      ≤ (poll_notion (some "1970-01-01T00:00:00Z")
          [[{ id := "p1", last_edited_time := "2025-08-12T12:00:00.000Z" },
            { id := "p2", last_edited_time := "2025-08-12T12:01:00.000Z" }]]).1.cursor
    ∧ (([[{ id := "p1", last_edited_time := "2025-08-12T12:00:00.000Z" },
          { id := "p2", last_edited_time := "2025-08-12T12:01:00.000Z" }]] :
          List (List QPage)).flatten = [] →
        (poll_notion (some "1970-01-01T00:00:00Z")
          [[{ id := "p1", last_edited_time := "2025-08-12T12:00:00.000Z" },
            { id := "p2", last_edited_time := "2025-08-12T12:01:00.000Z" }]]).1.enqueued = 0
        ∧ (poll_notion (some "1970-01-01T00:00:00Z")
            [[{ id := "p1", last_edited_time := "2025-08-12T12:00:00.000Z" },
              { id := "p2", last_edited_time := "2025-08-12T12:01:00.000Z" }]]).1.cursor
          = load_cursor (some "1970-01-01T00:00:00Z")) :=
  claim_C8_poll_cursor (some "1970-01-01T00:00:00Z")
    [[{ id := "p1", last_edited_time := "2025-08-12T12:00:00.000Z" },
      { id := "p2", last_edited_time := "2025-08-12T12:01:00.000Z" }]]

theorem poll_one_page_eval :
    poll_notion (some "1970-01-01T00:00:00Z")
        [[{ id := "p1", last_edited_time := "2025-08-12T12:00:00.000Z" }]]
      = ({ enqueued := 1, cursor := "2025-08-12T12:00:00.000Z" },
         [PollAct.saveCursor "2025-08-12T12:00:00.000Z",
          PollAct.enqueue "p1" "2025-08-12T12:00:00.000Z"]) := by
  simp only [poll_notion, query_since, batchMaxTs, load_cursor, Option.getD, List.foldl,
    List.map, List.length, gt_iff_lt]
  rw [if_pos (by rw [String.lt_iff_toList_lt]; decide :
    ("1970-01-01T00:00:00Z" : String) < "2025-08-12T12:00:00.000Z")]

/-- C4 fails on the code: the poll saves the new cursor before submitting any
record, so interrupting after the first action leaves the stored cursor
advanced with zero records submitted. -/
theorem claim_C4_counterexample :
    (runPollActs (some "1970-01-01T00:00:00Z")
        ((poll_notion (some "1970-01-01T00:00:00Z")
            [[{ id := "p1", last_edited_time := "2025-08-12T12:00:00.000Z" }]]).2.take 1)).2 = []
    ∧ (runPollActs (some "1970-01-01T00:00:00Z")
        ((poll_notion (some "1970-01-01T00:00:00Z")
            [[{ id := "p1", last_edited_time := "2025-08-12T12:00:00.000Z" }]]).2.take 1)).1
      = some "2025-08-12T12:00:00.000Z"
    ∧ some "2025-08-12T12:00:00.000Z" ≠ some "1970-01-01T00:00:00Z" := by
  rw [poll_one_page_eval]
  refine ⟨rfl, rfl, by decide⟩

theorem runPollActs_enqueues (stored : Option String) (ps : List QPage) :
    (runPollActs stored (ps.map (fun p => PollAct.enqueue p.id p.last_edited_time))).1
      = stored := by
  induction ps with
  | nil => rfl
  | cons p rest ih => simpa [runPollActs] using ih

/-- C4 amended: the cursor save is the first poll action, issued before any
record is submitted; once at least one action has executed, the stored cursor
is the new cursor, even when submission is interrupted before all records have
been enqueued. -/
theorem claim_C4_amended (stored : Option String) (batches : List (List QPage)) (k : Nat)
    (hk : 1 ≤ k) :
    (poll_notion stored batches).2
      = PollAct.saveCursor (poll_notion stored batches).1.cursor
          :: (query_since batches (load_cursor stored)).1.map
              (fun p => PollAct.enqueue p.id p.last_edited_time)
    ∧ (runPollActs stored ((poll_notion stored batches).2.take k)).1
        = some (poll_notion stored batches).1.cursor := by
  refine ⟨rfl, ?_⟩
  cases k with
  | zero => exact absurd hk (by decide)
  | succ n =>
      simp only [poll_notion, List.take, runPollActs]
      rw [← List.map_take]
      exact runPollActs_enqueues _ _

/-- Witness for the amended C4 at concrete inputs. -/
theorem claim_C4_amended_witness :
    (poll_notion (some "1970-01-01T00:00:00Z")
        [[{ id := "p1", last_edited_time := "2025-08-12T12:00:00.000Z" }]]).2
      = PollAct.saveCursor (poll_notion (some "1970-01-01T00:00:00Z")
            [[{ id := "p1", last_edited_time := "2025-08-12T12:00:00.000Z" }]]).1.cursor
          :: (query_since [[{ id := "p1", last_edited_time := "2025-08-12T12:00:00.000Z" }]]
                (load_cursor (some "1970-01-01T00:00:00Z"))).1.map
              (fun p => PollAct.enqueue p.id p.last_edited_time)
    ∧ (runPollActs (some "1970-01-01T00:00:00Z")
        ((poll_notion (some "1970-01-01T00:00:00Z")
            [[{ id := "p1", last_edited_time := "2025-08-12T12:00:00.000Z" }]]).2.take 1)).1
      = some (poll_notion (some "1970-01-01T00:00:00Z")
          [[{ id := "p1", last_edited_time := "2025-08-12T12:00:00.000Z" }]]).1.cursor :=
  claim_C4_amended (some "1970-01-01T00:00:00Z")
    [[{ id := "p1", last_edited_time := "2025-08-12T12:00:00.000Z" }]] 1 (by decide)

/-! ## Claim C10: unparseable edit_ts raises before the protected region -/

/-- C10.  A payload whose edit_ts is a string the ISO parser rejects makes
process_page raise from the idempotency check before entering the
dead-letter-protected region: the returned world is the input world unchanged
(no dead-letter entry, no ledger write, no external call); the payload the
/enqueue-test endpoint submits, with the literal demo string, is such a
payload. -/
theorem claim_C10_unparseable_edit_ts (w : World) (page_id ts : String)
    (h : parse_iso_z ts = none) :
    process_page w { page_id := page_id, edit_ts := some ts }
      = (.error "ValueError: invalid isoformat string", w)
    ∧ process_page w (enqueue_test_payload page_id)
      = (.error "ValueError: invalid isoformat string", w) := by
  constructor
  · simp [process_page, already_processed, h]
  · simp [process_page, enqueue_test_payload, already_processed,
      show parse_iso_z "demo" = none from by decide]

/-- Witness for C10: the demo payload against a small world. -/
theorem claim_C10_unparseable_edit_ts_witness :
    process_page { notionPages := [] } { page_id := "p1", edit_ts := some "demo" }
      = (.error "ValueError: invalid isoformat string", { notionPages := [] })
    ∧ process_page { notionPages := [] } (enqueue_test_payload "p1")
      = (.error "ValueError: invalid isoformat string", { notionPages := [] }) :=
  claim_C10_unparseable_edit_ts { notionPages := [] } "p1" "demo" (by decide)

/-! ## Claim C9: the write-back step -/

/-- Whether a property is declared with the url type. -/
def isUrlProp : NProp → Bool
  | .url _ => true
  | _ => false

/-- Whether a property is declared with the rich_text type. -/
def isRichTextProp : NProp → Bool
  | .richText _ => true
  | _ => false

/-- C9.  If the current value of the write-back property on the fetched page
already equals the resolved link, the write-back issues no update call and
leaves the world untouched; otherwise it issues exactly one update call whose
body carries exactly the one write-back property, and nothing else changes:
other pages, the other properties of the target page, the ledger, the
dead-letter store and the Drive tree are all unchanged. -/
theorem claim_C9_write_back_frame (w : World) (page : NPage) (page_id link : String)
    (prop : NProp)
    (hprop : lookupAssoc page.properties NOTION_DRIVE_PROP = some prop)
    (hok : w.patchFails = false) :
    (extract_prop_text prop = link →
        set_drive_link w page page_id link = (.ok (), w))
    ∧ (extract_prop_text prop ≠ link → (isUrlProp prop || isRichTextProp prop) = true →
        ∃ v, (set_drive_link w page page_id link).2.trace
              = w.trace ++ [Effect.patchPageCall page_id [(NOTION_DRIVE_PROP, v)]]
          ∧ (∀ pid2, pid2 ≠ page_id →
              lookupAssoc (set_drive_link w page page_id link).2.notionPages pid2
                = lookupAssoc w.notionPages pid2)
          ∧ (∀ name2, name2 ≠ NOTION_DRIVE_PROP →
              ((lookupAssoc (set_drive_link w page page_id link).2.notionPages page_id).map
                  (fun p => lookupAssoc p.properties name2))
                = ((lookupAssoc w.notionPages page_id).map
                    (fun p => lookupAssoc p.properties name2)))
          ∧ (set_drive_link w page page_id link).2.ledger = w.ledger
          ∧ (set_drive_link w page page_id link).2.dlq = w.dlq
          ∧ (set_drive_link w page page_id link).2.driveLive = w.driveLive) := by
  constructor
  · intro hcur
    simp [set_drive_link, hprop, hcur]
  · intro hcur htype
    have main : ∀ v : PatchVal,
        (patch_page_properties w page_id [(NOTION_DRIVE_PROP, v)]).2.trace
            = w.trace ++ [Effect.patchPageCall page_id [(NOTION_DRIVE_PROP, v)]]
        ∧ (∀ pid2, pid2 ≠ page_id →
            lookupAssoc (patch_page_properties w page_id
                [(NOTION_DRIVE_PROP, v)]).2.notionPages pid2
              = lookupAssoc w.notionPages pid2)
        ∧ (∀ name2, name2 ≠ NOTION_DRIVE_PROP →
            ((lookupAssoc (patch_page_properties w page_id
                [(NOTION_DRIVE_PROP, v)]).2.notionPages page_id).map
                (fun p => lookupAssoc p.properties name2))
              = ((lookupAssoc w.notionPages page_id).map
                  (fun p => lookupAssoc p.properties name2)))
        ∧ (patch_page_properties w page_id [(NOTION_DRIVE_PROP, v)]).2.ledger = w.ledger
        ∧ (patch_page_properties w page_id [(NOTION_DRIVE_PROP, v)]).2.dlq = w.dlq
        ∧ (patch_page_properties w page_id [(NOTION_DRIVE_PROP, v)]).2.driveLive
            = w.driveLive := by
      intro v
      cases hpg : lookupAssoc w.notionPages page_id with
      | none => simp [patch_page_properties, World.emit, hok, hpg]
      | some p =>
          refine ⟨by simp [patch_page_properties, World.emit, hok, hpg], ?_, ?_,
            by simp [patch_page_properties, World.emit, hok, hpg],
            by simp [patch_page_properties, World.emit, hok, hpg],
            by simp [patch_page_properties, World.emit, hok, hpg]⟩
          · intro pid2 hpid2
            simp only [patch_page_properties, World.emit, hok, Bool.false_eq_true, if_false,
              hpg]
            exact lookupAssoc_setAssoc_ne _ _ _ _ hpid2
          · intro name2 hname2
            simp only [patch_page_properties, World.emit, hok, Bool.false_eq_true, if_false,
              hpg]
            rw [lookupAssoc_setAssoc_self]
            exact congrArg some
              (lookupAssoc_setAssoc_ne p.properties NOTION_DRIVE_PROP name2
                (applyPatchVal v) hname2)
    cases prop with
    | url u =>
        refine ⟨.urlVal link, ?_⟩
        simp only [set_drive_link, hprop, if_neg hcur]
        exact main (.urlVal link)
    | richText segs =>
        refine ⟨.richTextVal link, ?_⟩
        simp only [set_drive_link, hprop, if_neg hcur]
        exact main (.richTextVal link)
    | titleProp segs => simp [isUrlProp, isRichTextProp] at htype
    | otherProp t => simp [isUrlProp, isRichTextProp] at htype

/-- Witness for C9 at concrete inputs. -/
theorem claim_C9_write_back_frame_witness :
    (extract_prop_text (NProp.url none) = "L" →
        set_drive_link { notionPages := [("p1", { properties := [("Google Drive Link",
            NProp.url none)] })] }
            { properties := [("Google Drive Link", NProp.url none)] } "p1" "L"
          = (.ok (), { notionPages := [("p1", { properties := [("Google Drive Link",
              NProp.url none)] })] }))
    ∧ (extract_prop_text (NProp.url none) ≠ "L" →
        (isUrlProp (NProp.url none) || isRichTextProp (NProp.url none)) = true →
        ∃ v, (set_drive_link { notionPages := [("p1", { properties := [("Google Drive Link",
              NProp.url none)] })] }
              { properties := [("Google Drive Link", NProp.url none)] } "p1" "L").2.trace
              = ({ notionPages := [("p1", { properties := [("Google Drive Link",
                  NProp.url none)] })] } : World).trace
                ++ [Effect.patchPageCall "p1" [("Google Drive Link", v)]]
          ∧ (∀ pid2, pid2 ≠ "p1" →
              lookupAssoc (set_drive_link { notionPages := [("p1", { properties :=
                  [("Google Drive Link", NProp.url none)] })] }
                  { properties := [("Google Drive Link", NProp.url none)] }
                  "p1" "L").2.notionPages pid2
                = lookupAssoc ({ notionPages := [("p1", { properties := [("Google Drive Link",
                    NProp.url none)] })] } : World).notionPages pid2)
          ∧ (∀ name2, name2 ≠ NOTION_DRIVE_PROP →
              ((lookupAssoc (set_drive_link { notionPages := [("p1", { properties :=
                  [("Google Drive Link", NProp.url none)] })] }
                  { properties := [("Google Drive Link", NProp.url none)] }
                  "p1" "L").2.notionPages "p1").map
                  (fun p => lookupAssoc p.properties name2))
                = ((lookupAssoc ({ notionPages := [("p1", { properties :=
                    [("Google Drive Link", NProp.url none)] })] } : World).notionPages "p1").map
                    (fun p => lookupAssoc p.properties name2)))
          ∧ (set_drive_link { notionPages := [("p1", { properties := [("Google Drive Link",
              NProp.url none)] })] }
              { properties := [("Google Drive Link", NProp.url none)] } "p1" "L").2.ledger
            = ({ notionPages := [("p1", { properties := [("Google Drive Link",
                NProp.url none)] })] } : World).ledger
          ∧ (set_drive_link { notionPages := [("p1", { properties := [("Google Drive Link",
              NProp.url none)] })] }
              { properties := [("Google Drive Link", NProp.url none)] } "p1" "L").2.dlq
            = ({ notionPages := [("p1", { properties := [("Google Drive Link",
                NProp.url none)] })] } : World).dlq
          ∧ (set_drive_link { notionPages := [("p1", { properties := [("Google Drive Link",
              NProp.url none)] })] }
              { properties := [("Google Drive Link", NProp.url none)] } "p1" "L").2.driveLive
            = ({ notionPages := [("p1", { properties := [("Google Drive Link",
                NProp.url none)] })] } : World).driveLive) :=
  claim_C9_write_back_frame { notionPages := [("p1", { properties := [("Google Drive Link",
      NProp.url none)] })] }
    { properties := [("Google Drive Link", NProp.url none)] } "p1" "L" (NProp.url none)
    (by decide) rfl

/-! ## Claim C3: reconciliation of a stale cached handle -/

theorem find?_append_of_none {α : Type} (p : α → Bool) (l1 l2 : List α)
    (h : l1.find? p = none) : (l1 ++ l2).find? p = l2.find? p := by
  rw [List.find?_append, h, Option.none_or]

theorem get_drive_info_set_drive_info (led : Ledger) (id fid lnk : String) :
    get_drive_info (set_drive_info led id fid lnk) id = (some fid, some lnk) := by
  cases hl : lookupRow led id with
  | none => simp [set_drive_info, get_drive_info, hl, lookupRow_setRow_self]
  | some row => simp [set_drive_info, get_drive_info, hl, lookupRow_setRow_self]

/-- C3 fails on the spec algorithm: when the cached handle is stale but another
live folder already carries the desired name, step 2 adopts that folder and no
new resource is created at all, contradicting that exactly one new resource is
created. -/
theorem claim_C3_counterexample :
    (get_or_create_folder
        { notionPages := [],
          driveLive := [{ id := "f9", name := "House", web_link := "L9" }],
          ledger := [("p1", { drive_folder_id := some "deadf", drive_link := some "Ld" })] }
        "p1" "House").2.driveLive
      = [{ id := "f9", name := "House", web_link := "L9" }]
    ∧ (get_or_create_folder
        { notionPages := [],
          driveLive := [{ id := "f9", name := "House", web_link := "L9" }],
          ledger := [("p1", { drive_folder_id := some "deadf", drive_link := some "Ld" })] }
        "p1" "House").1 = .ok ("f9", "L9")
    ∧ ∀ e ∈ (get_or_create_folder
        { notionPages := [],
          driveLive := [{ id := "f9", name := "House", web_link := "L9" }],
          ledger := [("p1", { drive_folder_id := some "deadf", drive_link := some "Ld" })] }
        "p1" "House").2.trace, e ≠ Effect.driveCreateCall "House" := by
  refine ⟨rfl, rfl, by decide⟩

/-- C3 amended: when the cached handle is stale, the live resource is gone, and
no live resource carries the desired name, the reconciler creates exactly one
new resource, caches its id and link, and a subsequent call in the resulting
state returns the cached resource without creating another. -/
theorem claim_C3_amended (w : World) (pid title fid : String) (lnk : Option String)
    (hcache : get_drive_info w.ledger pid = (some fid, lnk))
    (hgone : w.driveLive.find? (fun f => f.id == fid) = none)
    (hname : w.driveLive.find? (fun f => f.name == title) = none)
    (hcf : w.createFails = false)
    (hfresh : w.driveLive.find?
        (fun f => f.id == "folder-" ++ toString w.driveNextId) = none) :
    ∃ nf : DriveFolder,
      nf = { id := "folder-" ++ toString w.driveNextId, name := title,
             web_link := "https://drive.google.com/drive/folders/"
               ++ ("folder-" ++ toString w.driveNextId) }
      ∧ (get_or_create_folder w pid title).1 = .ok (nf.id, nf.web_link)
      ∧ (get_or_create_folder w pid title).2.driveLive = w.driveLive ++ [nf]
      ∧ get_drive_info (get_or_create_folder w pid title).2.ledger pid
          = (some nf.id, some nf.web_link)
      ∧ (get_or_create_folder (get_or_create_folder w pid title).2 pid title).1
          = .ok (nf.id, nf.web_link)
      ∧ (get_or_create_folder (get_or_create_folder w pid title).2 pid title).2.driveLive
          = (get_or_create_folder w pid title).2.driveLive := by
  set nf : DriveFolder :=
    { id := "folder-" ++ toString w.driveNextId, name := title,
      web_link := "https://drive.google.com/drive/folders/"
        ++ ("folder-" ++ toString w.driveNextId) } with hnf
  have hEq : get_or_create_folder w pid title
      = (.ok (nf.id, nf.web_link),
         { w with
            ledger := set_drive_info (clear_drive_info w.ledger pid) pid nf.id nf.web_link,
            driveLive := w.driveLive ++ [nf],
            driveNextId := w.driveNextId + 1,
            trace := w.trace ++ [Effect.driveGetCall fid]
              ++ [Effect.driveSearchCall title]
              ++ [Effect.driveCreateCall title]
              ++ [Effect.drivePermissionCall nf.id] }) := by
    simp only [get_or_create_folder, hcache, drive_get_folder, World.emit, hgone,
      get_or_create_folder_steps23, drive_find_folder, hname, drive_create_folder, hcf,
      Bool.false_eq_true, if_false, hnf]
  have hset := get_drive_info_set_drive_info (clear_drive_info w.ledger pid) pid
    nf.id nf.web_link
  refine ⟨nf, rfl, ?_, ?_, ?_, ?_, ?_⟩
  · rw [hEq]
  · rw [hEq]
  · rw [hEq]
    exact hset
  · rw [hEq]
    simp only [get_or_create_folder, hset, drive_get_folder, World.emit]
    rw [find?_append_of_none _ _ _ hfresh]
    simp [List.find?]
  · rw [hEq]
    simp only [get_or_create_folder, hset, drive_get_folder, World.emit]
    rw [find?_append_of_none _ _ _ hfresh]
    simp [List.find?]

/-- Witness for the amended C3 at concrete inputs. -/
theorem claim_C3_amended_witness :
    ∃ nf : DriveFolder,
      nf = { id := "folder-" ++ toString (0 : Nat), name := "House",
             web_link := "https://drive.google.com/drive/folders/"
               ++ ("folder-" ++ toString (0 : Nat)) }
      ∧ (get_or_create_folder
          { notionPages := [],
            ledger := [("p1", { drive_folder_id := some "deadf", drive_link := some "Ld" })] } "p1" "House").1 = .ok (nf.id, nf.web_link)
      ∧ (get_or_create_folder
          { notionPages := [],
            ledger := [("p1", { drive_folder_id := some "deadf", drive_link := some "Ld" })] } "p1" "House").2.driveLive
          = ({ notionPages := [],
               ledger := [("p1", { drive_folder_id := some "deadf", drive_link := some "Ld" })] } : World).driveLive ++ [nf]
      ∧ get_drive_info (get_or_create_folder
          { notionPages := [],
            ledger := [("p1", { drive_folder_id := some "deadf", drive_link := some "Ld" })] } "p1" "House").2.ledger "p1"
          = (some nf.id, some nf.web_link)
      ∧ (get_or_create_folder (get_or_create_folder
          { notionPages := [],
            ledger := [("p1", { drive_folder_id := some "deadf", drive_link := some "Ld" })] } "p1" "House").2 "p1" "House").1
          = .ok (nf.id, nf.web_link)
      ∧ (get_or_create_folder (get_or_create_folder
          { notionPages := [],
            ledger := [("p1", { drive_folder_id := some "deadf", drive_link := some "Ld" })] } "p1" "House").2 "p1" "House").2.driveLive
          = (get_or_create_folder
              { notionPages := [],
                ledger := [("p1", { drive_folder_id := some "deadf", drive_link := some "Ld" })] } "p1" "House").2.driveLive :=
  claim_C3_amended
    { notionPages := [],
      ledger := [("p1", { drive_folder_id := some "deadf", drive_link := some "Ld" })] }
    "p1" "House" "deadf" (some "Ld") rfl rfl rfl rfl rfl

/-! ## Claim C5: the failure path of the orchestrator -/

theorem lastProcessedOf_setRow_keep (led : Ledger) (id q : String) (row r2 : Row)
    (hl : lookupRow led id = some row)
    (hlp : r2.last_processed_edit = row.last_processed_edit) :
    lastProcessedOf (setRow led id r2) q = lastProcessedOf led q := by
  by_cases hq : q = id
  · subst hq
    simp [lastProcessedOf, lookupRow_setRow_self, hl, hlp]
  · simp [lastProcessedOf, lookupRow, setRow, lookupAssoc_setAssoc_ne led id q r2 hq]

theorem lastProcessedOf_set_drive_info (led : Ledger) (id fid lnk q : String) :
    lastProcessedOf (set_drive_info led id fid lnk) q = lastProcessedOf led q := by
  cases hl : lookupRow led id with
  | none =>
      have hl2 : lookupAssoc led id = none := hl
      by_cases hq : q = id
      · subst hq
        simp [set_drive_info, hl, hl2, lastProcessedOf, lookupRow_setRow_self]
      · simp [set_drive_info, hl, hl2, lastProcessedOf, lookupRow, setRow,
          lookupAssoc_setAssoc_ne led id q _ hq]
  | some row =>
      simp only [set_drive_info, hl]
      exact lastProcessedOf_setRow_keep led id q row _ hl rfl

theorem lastProcessedOf_clear_drive_info (led : Ledger) (id q : String) :
    lastProcessedOf (clear_drive_info led id) q = lastProcessedOf led q := by
  cases hl : lookupRow led id with
  | none => simp [clear_drive_info, hl]
  | some row =>
      simp only [clear_drive_info, hl]
      exact lastProcessedOf_setRow_keep led id q row _ hl rfl

theorem alreadyProcessedDB_keeps_lp (led : Ledger) (id : String) (dt : Int) :
    ∀ q, lastProcessedOf (alreadyProcessedDB led id dt).2 q = lastProcessedOf led q := by
  intro q
  cases hl : lookupRow led id with
  | none =>
      have hl2 : lookupAssoc led id = none := hl
      by_cases hq : q = id
      · subst hq
        simp [alreadyProcessedDB, hl, hl2, lastProcessedOf, lookupRow_setRow_self]
      · simp [alreadyProcessedDB, hl, hl2, lastProcessedOf, lookupRow, setRow,
          lookupAssoc_setAssoc_ne led id q _ hq]
  | some row =>
      simp only [alreadyProcessedDB, hl]
      exact lastProcessedOf_setRow_keep led id q row _ hl rfl

theorem fetch_page_frame (w : World) (pid : String) :
    (fetch_page w pid).2.dlq = w.dlq
    ∧ (fetch_page w pid).2.ledger = w.ledger
    ∧ ∀ p2 e2, Effect.dbMarkProcessed p2 e2 ∈ (fetch_page w pid).2.trace
        → Effect.dbMarkProcessed p2 e2 ∈ w.trace := by
  by_cases hmem : pid ∈ w.fetchFails
  · simp [fetch_page, World.emit, hmem]
  · cases hpg : lookupAssoc w.notionPages pid with
    | none => simp [fetch_page, World.emit, hmem, hpg]
    | some p => simp [fetch_page, World.emit, hmem, hpg]

theorem drive_create_folder_frame (w : World) (name : String) :
    (drive_create_folder w name).2.dlq = w.dlq
    ∧ (drive_create_folder w name).2.ledger = w.ledger
    ∧ ∀ p2 e2, Effect.dbMarkProcessed p2 e2 ∈ (drive_create_folder w name).2.trace
        → Effect.dbMarkProcessed p2 e2 ∈ w.trace := by
  by_cases hcf : w.createFails
  · simp [drive_create_folder, World.emit, hcf]
  · simp [drive_create_folder, World.emit, hcf]

theorem get_or_create_folder_steps23_frame (w : World) (pid title : String) :
    (get_or_create_folder_steps23 w pid title).2.dlq = w.dlq
    ∧ (∀ q, lastProcessedOf (get_or_create_folder_steps23 w pid title).2.ledger q
        = lastProcessedOf w.ledger q)
    ∧ ∀ p2 e2,
        Effect.dbMarkProcessed p2 e2 ∈ (get_or_create_folder_steps23 w pid title).2.trace
        → Effect.dbMarkProcessed p2 e2 ∈ w.trace := by
  cases hf : w.driveLive.find? (fun f => f.name == title) with
  | some f =>
      simp [get_or_create_folder_steps23, drive_find_folder, World.emit, hf,
        lastProcessedOf_set_drive_info]
  | none =>
      by_cases hcf : w.createFails
      · simp [get_or_create_folder_steps23, drive_find_folder, drive_create_folder,
          World.emit, hf, hcf]
      · simp [get_or_create_folder_steps23, drive_find_folder, drive_create_folder,
          World.emit, hf, hcf, lastProcessedOf_set_drive_info]

theorem get_or_create_folder_frame (w : World) (pid title : String) :
    (get_or_create_folder w pid title).2.dlq = w.dlq
    ∧ (∀ q, lastProcessedOf (get_or_create_folder w pid title).2.ledger q
        = lastProcessedOf w.ledger q)
    ∧ ∀ p2 e2, Effect.dbMarkProcessed p2 e2 ∈ (get_or_create_folder w pid title).2.trace
        → Effect.dbMarkProcessed p2 e2 ∈ w.trace := by
  cases hc : (get_drive_info w.ledger pid).1 with
  | none =>
      simp only [get_or_create_folder, hc]
      exact get_or_create_folder_steps23_frame w pid title
  | some fid =>
      cases hlive : w.driveLive.find? (fun f => f.id == fid) with
      | some f => simp [get_or_create_folder, hc, drive_get_folder, World.emit, hlive]
      | none =>
          simp only [get_or_create_folder, hc, drive_get_folder, World.emit, hlive]
          set w2 : World :=
            { w with
              ledger := clear_drive_info w.ledger pid,
              trace := w.trace ++ [Effect.driveGetCall fid] } with hw2
          obtain ⟨h1, h2, h3⟩ := get_or_create_folder_steps23_frame w2 pid title
          refine ⟨by simpa [hw2] using h1, ?_, ?_⟩
          · intro q
            rw [h2 q]
            simp [hw2, lastProcessedOf_clear_drive_info]
          · intro p2 e2 hmem
            have := h3 p2 e2 hmem
            simp [hw2] at this
            exact this

theorem set_drive_link_frame (w : World) (page : NPage) (pid lnk : String) :
    (set_drive_link w page pid lnk).2.dlq = w.dlq
    ∧ (set_drive_link w page pid lnk).2.ledger = w.ledger
    ∧ ∀ p2 e2, Effect.dbMarkProcessed p2 e2 ∈ (set_drive_link w page pid lnk).2.trace
        → Effect.dbMarkProcessed p2 e2 ∈ w.trace := by
  have hpatch : ∀ props,
      (patch_page_properties w pid props).2.dlq = w.dlq
      ∧ (patch_page_properties w pid props).2.ledger = w.ledger
      ∧ ∀ p2 e2, Effect.dbMarkProcessed p2 e2 ∈ (patch_page_properties w pid props).2.trace
          → Effect.dbMarkProcessed p2 e2 ∈ w.trace := by
    intro props
    by_cases hpf : w.patchFails
    · simp [patch_page_properties, World.emit, hpf]
    · cases hpg : lookupAssoc w.notionPages pid with
      | none => simp [patch_page_properties, World.emit, hpf, hpg]
      | some p => simp [patch_page_properties, World.emit, hpf, hpg]
  cases hprop : lookupAssoc page.properties NOTION_DRIVE_PROP with
  | none => simp [set_drive_link, hprop]
  | some prop =>
      by_cases hcur : extract_prop_text prop = lnk
      · simp [set_drive_link, hprop, hcur]
      · cases prop with
        | url u =>
            simp only [set_drive_link, hprop, if_neg hcur]
            exact hpatch _
        | richText segs =>
            simp only [set_drive_link, hprop, if_neg hcur]
            exact hpatch _
        | titleProp segs => simp [set_drive_link, hprop, hcur]
        | otherProp t => simp [set_drive_link, hprop, hcur]

theorem process_page_body_error_frame (w : World) (pid ts e : String) (w2 : World)
    (h : process_page_body w pid ts = (.error e, w2)) :
    w2.dlq = w.dlq
    ∧ (∀ q, lastProcessedOf w2.ledger q = lastProcessedOf w.ledger q)
    ∧ ∀ p2 e2, Effect.dbMarkProcessed p2 e2 ∈ w2.trace
        → Effect.dbMarkProcessed p2 e2 ∈ w.trace := by
  obtain ⟨f1, f2, f3⟩ := fetch_page_frame w pid
  unfold process_page_body at h
  cases hf : fetch_page w pid with
  | mk fr wf =>
      rw [hf] at h
      rw [hf] at f1 f2 f3
      cases fr with
      | error e1 =>
          simp only [Prod.mk.injEq, Except.error.injEq] at h
          rw [← h.2]
          exact ⟨f1, fun q => by rw [f2], f3⟩
      | ok page =>
          simp only at h
          obtain ⟨g1, g2, g3⟩ := get_or_create_folder_frame wf pid
            (if page_title_from_obj page = "" then "notion-page-" ++ pyTakeRight pid 6
             else page_title_from_obj page)
          cases hg : get_or_create_folder wf pid
              (if page_title_from_obj page = "" then "notion-page-" ++ pyTakeRight pid 6
               else page_title_from_obj page) with
          | mk gr wg =>
              rw [hg] at h
              rw [hg] at g1 g2 g3
              cases gr with
              | error e2 =>
                  simp only [Prod.mk.injEq, Except.error.injEq] at h
                  rw [← h.2]
                  refine ⟨g1.trans f1, fun q => (g2 q).trans (by rw [f2]), ?_⟩
                  intro p2 e3 hm
                  exact f3 p2 e3 (g3 p2 e3 hm)
              | ok fl =>
                  simp only at h
                  obtain ⟨s1, s2, s3⟩ := set_drive_link_frame wg page pid fl.2
                  cases hs : set_drive_link wg page pid fl.2 with
                  | mk sr ws =>
                      rw [hs] at h
                      rw [hs] at s1 s2 s3
                      cases sr with
                      | error e3 =>
                          simp only [Prod.mk.injEq, Except.error.injEq] at h
                          rw [← h.2]
                          refine ⟨s1.trans (g1.trans f1),
                            fun q => by rw [s2, g2 q, f2], ?_⟩
                          intro p2 e4 hm
                          exact f3 p2 e4 (g3 p2 e4 (s3 p2 e4 hm))
                      | ok u =>
                          simp only [mark_processed] at h
                          cases hp : parse_iso_z ts with
                          | none =>
                              rw [hp] at h
                              simp only [Prod.mk.injEq, Except.error.injEq] at h
                              rw [← h.2]
                              refine ⟨s1.trans (g1.trans f1),
                                fun q => by rw [s2, g2 q, f2], ?_⟩
                              intro p2 e4 hm
                              exact f3 p2 e4 (g3 p2 e4 (s3 p2 e4 hm))
                          | some dt =>
                              rw [hp] at h
                              simp at h

/-- C5.  If the idempotency check passes (returns false) and any step of the
protected region fails, then process_page appends exactly one dead-letter entry
for the pair, re-raises the same exception, and never calls mark_processed for
it: the dead-letter store gains exactly the one entry, the trace gains the one
dead-letter event and no mark event, and last_processed_edit is unchanged. -/
theorem claim_C5_failure_path (w : World) (page_id ts e : String) (dt : Int) (w2 : World)
    (hparse : parse_iso_z ts = some dt)
    (hcheck : (alreadyProcessedDB w.ledger page_id dt).1 = false)
    (hbody : process_page_body { w with ledger := (alreadyProcessedDB w.ledger page_id dt).2 }
        page_id ts = (.error e, w2)) :
    process_page w { page_id := page_id, edit_ts := some ts }
      = (.error e, { w2 with
          dlq := w2.dlq ++ [{ page_id := page_id, edit_ts := dt, error := pyTake e 8000 }],
          trace := w2.trace ++ [Effect.dbDlqPut page_id ts] })
    ∧ w2.dlq = w.dlq
    ∧ (∀ p2 e2, Effect.dbMarkProcessed p2 e2 ∈ w2.trace
        → Effect.dbMarkProcessed p2 e2 ∈ w.trace)
    ∧ lastProcessedOf w2.ledger page_id = lastProcessedOf w.ledger page_id := by
  obtain ⟨b1, b2, b3⟩ := process_page_body_error_frame _ page_id ts e w2 hbody
  have hlp := alreadyProcessedDB_keeps_lp w.ledger page_id dt
  refine ⟨?_, by simpa using b1, fun p2 e2 hm => by simpa using b3 p2 e2 hm, ?_⟩
  · simp only [process_page, already_processed, hparse, hcheck, hbody, dlq_put]
  · rw [b2 page_id]
    simpa using hlp page_id

/-- Witness for C5: a world whose Drive create call fails. -/
theorem claim_C5_failure_path_witness :
    process_page wCreateFail { page_id := "p1", edit_ts := some "2025-01-01T00:00:00Z" }
      = (.error "HttpError: Drive create failed",
         { wCreateFailMid with
            dlq := wCreateFailMid.dlq
              ++ [{ page_id := "p1", edit_ts := T2025, error := pyTake "HttpError: Drive create failed" 8000 }],
            trace := wCreateFailMid.trace ++ [Effect.dbDlqPut "p1" "2025-01-01T00:00:00Z"] })
    ∧ wCreateFailMid.dlq = wCreateFail.dlq
    ∧ (∀ p2 e2, Effect.dbMarkProcessed p2 e2 ∈ wCreateFailMid.trace
        → Effect.dbMarkProcessed p2 e2 ∈ wCreateFail.trace)
    ∧ lastProcessedOf wCreateFailMid.ledger "p1"
      = lastProcessedOf wCreateFail.ledger "p1" :=
  claim_C5_failure_path wCreateFail "p1" "2025-01-01T00:00:00Z"
    "HttpError: Drive create failed" T2025 wCreateFailMid
    (by decide) (by decide) (by decide)

/-! ## Claim C1: idempotence of the full orchestration -/

theorem row_eta_ls (row : Row) (ls : Int) (h : row.last_seen_edit = some ls) :
    ({ row with last_seen_edit := some ls } : Row) = row := by
  cases row
  simp only at h
  rw [h]

theorem markProcessedDB_lookup (led : Ledger) (id : String) (dt : Int) :
    ∃ row, lookupRow (markProcessedDB led id dt) id = some row
      ∧ ∃ lp ls, row.last_processed_edit = some lp ∧ row.last_seen_edit = some ls
        ∧ dt ≤ lp ∧ dt ≤ ls := by
  cases hl : lookupRow led id with
  | none =>
      refine ⟨{ last_processed_edit := some dt, last_seen_edit := some dt }, ?_,
        dt, dt, rfl, rfl, le_refl dt, le_refl dt⟩
      simp [markProcessedDB, hl, lookupRow_setRow_self]
  | some row =>
      refine ⟨{ row with
          last_processed_edit := some (greatestO row.last_processed_edit dt),
          last_seen_edit := some (greatestO row.last_seen_edit dt) }, ?_,
        greatestO row.last_processed_edit dt, greatestO row.last_seen_edit dt,
        rfl, rfl, le_greatestO _ dt, le_greatestO _ dt⟩
      simp [markProcessedDB, hl, lookupRow_setRow_self]

theorem process_page_body_ok_ledger (w : World) (pid ts : String) (res : PResult)
    (w2 : World) (h : process_page_body w pid ts = (.ok res, w2)) :
    ∃ dt led3, parse_iso_z ts = some dt ∧ w2.ledger = markProcessedDB led3 pid dt := by
  unfold process_page_body at h
  cases hf : fetch_page w pid with
  | mk fr wf =>
      rw [hf] at h
      cases fr with
      | error e1 => simp at h
      | ok page =>
          simp only at h
          cases hg : get_or_create_folder wf pid
              (if page_title_from_obj page = "" then "notion-page-" ++ pyTakeRight pid 6
               else page_title_from_obj page) with
          | mk gr wg =>
              rw [hg] at h
              cases gr with
              | error e2 => simp at h
              | ok fl =>
                  simp only at h
                  cases hs : set_drive_link wg page pid fl.2 with
                  | mk sr ws =>
                      rw [hs] at h
                      cases sr with
                      | error e3 => simp at h
                      | ok u =>
                          simp only [mark_processed] at h
                          cases hp : parse_iso_z ts with
                          | none => rw [hp] at h; simp at h
                          | some dt =>
                              rw [hp] at h
                              simp only [Prod.mk.injEq, Except.ok.injEq] at h
                              refine ⟨dt, ws.ledger, rfl, ?_⟩
                              rw [← h.2]

theorem process_page_skip (w : World) (pid ts : String) (dt : Int) (row : Row) (lp ls : Int)
    (hp : parse_iso_z ts = some dt)
    (hrow : lookupRow w.ledger pid = some row)
    (hlp : row.last_processed_edit = some lp) (hls : row.last_seen_edit = some ls)
    (h1 : dt ≤ lp) (h2 : dt ≤ ls) :
    process_page w { page_id := pid, edit_ts := some ts } = (.ok (.skip pid), w) := by
  have hgo : greatestO row.last_seen_edit dt = ls := by
    rw [hls]
    simp only [greatestO]
    omega
  have hrow2 : ({ row with last_seen_edit := some (greatestO row.last_seen_edit dt) } : Row)
      = row := by
    rw [hgo]
    exact row_eta_ls row ls hls
  have hset : setRow w.ledger pid
      { row with last_seen_edit := some (greatestO row.last_seen_edit dt) } = w.ledger := by
    rw [hrow2]
    exact setRow_eq_of_lookup _ _ _ hrow
  rw [hlp] at hset
  simp only [process_page, already_processed, hp, alreadyProcessedDB, hrow, hlp]
  simp [ge_iff_le, h1, hset]

/-- C1.  If process_page completed successfully for (page_id, t) — returning an
ok result and the world w2 — then a second invocation with the same page_id and
t returns a skip result and the very same world w2: no folder creation, no
Notion page update, no dead-letter write, no ledger change, no trace growth. -/
theorem claim_C1_idempotent (w w2 : World) (page_id ts pid2 title fid lnk : String)
    (h : process_page w { page_id := page_id, edit_ts := some ts }
          = (.ok (.ok pid2 title fid lnk), w2)) :
    process_page w2 { page_id := page_id, edit_ts := some ts }
      = (.ok (.skip page_id), w2) := by
  cases hp : parse_iso_z ts with
  | none =>
      simp only [process_page, already_processed, hp] at h
      simp at h
  | some dt =>
      simp only [process_page, already_processed, hp] at h
      cases hchk : (alreadyProcessedDB w.ledger page_id dt).1 with
      | true => rw [hchk] at h; simp at h
      | false =>
          rw [hchk] at h
          simp only at h
          cases hb : process_page_body
              { w with ledger := (alreadyProcessedDB w.ledger page_id dt).2 }
              page_id ts with
          | mk br wb =>
              rw [hb] at h
              cases br with
              | error e =>
                  simp only [dlq_put, hp] at h
                  simp at h
              | ok res =>
                  simp only [Prod.mk.injEq, Except.ok.injEq] at h
                  obtain ⟨dt2, led3, hp2, hled⟩ :=
                    process_page_body_ok_ledger _ page_id ts res wb hb
                  rw [hp] at hp2
                  have hdt : dt2 = dt := by
                    simp only [Option.some.injEq] at hp2
                    omega
                  subst hdt
                  obtain ⟨row, hrow, lp, ls, hlp, hls, hlp2, hls2⟩ :=
                    markProcessedDB_lookup led3 page_id dt2
                  rw [← hled, h.2] at hrow
                  exact process_page_skip w2 page_id ts dt2 row lp ls hp hrow hlp hls hlp2 hls2

/-- Witness for C1: the healthy world, run twice. -/
theorem claim_C1_idempotent_witness :
    process_page wHealthyDone { page_id := "p1", edit_ts := some "2025-01-01T00:00:00Z" }
      = (.ok (.skip "p1"), wHealthyDone) :=
  claim_C1_idempotent wHealthy wHealthyDone "p1" "2025-01-01T00:00:00Z"
    "p1" "My House" "folder-0" doneLink (by decide)

end ReiAuto
